import Mathlib

/-!
Shallow embedding of the aggregation engine of `src/src/App.tsx`
(the `analytics` computation of the sales dashboard, lines 67-168, and the
top-product insight of lines 459-465), together with proofs of the
specification's claims about it.

Modelling conventions:
* JS numbers (`money`, revenues, percentages) are modelled as `ℚ`; the `hour`
  field (produced upstream by `Date.getHours`) as `ℕ`.
* The JS grouping idiom `data.reduce((acc, r) => { if (!acc[k]) acc[k] = d;
  update acc[k]; return acc }, {})` mutates a plain object whose string keys
  enumerate in insertion order; it is modelled as a left fold over an
  insertion-ordered association list (`upsert` appends unseen keys at the end
  and updates seen keys in place).
* `Number.prototype.toFixed(f)` picks the integer `n` with `n / 10^f` closest
  to the argument, preferring the larger `n` on ties: modelled as
  `⌊q * 10^f + 1/2⌋ / 10^f`.
* The `if (data.length === 0) return null` guard of `analytics` (line 68) is
  modelled by returning `Option.none`; the spec calls this signal
  `EmptyInputError`.
-/

/-- Embedding of `interface SalesRecord` (`src/src/App.tsx` lines 6-14). -/
structure SalesRecord where
  date : String
  datetime : String
  cash_type : String
  card : String
  money : ℚ
  coffee_name : String
  hour : ℕ
deriving DecidableEq, Repr

/-- Insertion-ordered association-list update: if the key is present, apply
`f` to its value in place; otherwise append `(k, f d)` at the end.  This is
the JS object idiom `if (!acc[k]) acc[k] = d; acc[k] = f(acc[k])`. -/
def upsert {α β : Type} [DecidableEq α] (k : α) (f : β → β) (d : β) :
    List (α × β) → List (α × β)
  | [] => [(k, f d)]
  | (a, b) :: rest => if k = a then (a, f b) :: rest else (a, b) :: upsert k f d rest

/-- Lookup in an association list (the JS object read `acc[k]`). -/
def alookup {α β : Type} [DecidableEq α] (k : α) : List (α × β) → Option β
  | [] => none
  | (a, b) :: rest => if k = a then some b else alookup k rest

/-- A grouping pass: `data.reduce((acc, x) => { upsert key(x) ... }, {})`. -/
def groupFold {σ α β : Type} [DecidableEq α] (key : σ → α) (F : σ → β → β)
    (D : β) (data : List σ) : List (α × β) :=
  data.foldl (fun acc x => upsert (key x) (F x) D acc) []

/-- JS `Number.prototype.toFixed(2)` (then `parseFloat`) on a rational value. -/
def toFixed2 (q : ℚ) : ℚ := (⌊q * 100 + 1/2⌋ : ℤ) / 100

/-- JS `Number.prototype.toFixed(1)` on a rational value. -/
def toFixed1 (q : ℚ) : ℚ := (⌊q * 10 + 1/2⌋ : ℤ) / 10

/-- Line 71: `data.reduce((sum, record) => sum + record.money, 0)`. -/
def totalRevenue (data : List SalesRecord) : ℚ :=
  data.foldl (fun s r => s + r.money) 0

/-- Line 72: `const totalOrders = data.length`. -/
def totalOrders (data : List SalesRecord) : ℕ := data.length

/-- Line 74: `new Set(data.map(record => record.card)).size`. -/
def uniqueCustomers (data : List SalesRecord) : ℕ :=
  ((data.map (fun r => r.card)).dedup).length

/-- Per-coffee accumulator record (`{ count, revenue, avgPrice }`, line 80). -/
structure CoffeeStat where
  count : ℕ
  revenue : ℚ
  avgPrice : ℚ
deriving DecidableEq, Repr

/-- Lines 77-86: the coffee-type grouping pass.  Each step increments `count`,
adds `record.money` to `revenue`, and recomputes `avgPrice = revenue / count`. -/
def coffeeStats (data : List SalesRecord) : List (String × CoffeeStat) :=
  groupFold (fun r => r.coffee_name)
    (fun r s =>
      { count := s.count + 1, revenue := s.revenue + r.money,
        avgPrice := (s.revenue + r.money) / ((s.count : ℚ) + 1) })
    { count := 0, revenue := 0, avgPrice := 0 } data

/-- One entry of `coffeeChartData` (the spec's `ProductAggregate`). -/
structure CoffeeEntry where
  name : String
  count : ℕ
  revenue : ℚ
  avgPrice : ℚ
deriving DecidableEq, Repr

/-- Lines 88-93: `Object.entries(coffeeStats).map(...)`, rounding the average
price to 2 decimals at materialization. -/
def coffeeChartData (data : List SalesRecord) : List CoffeeEntry :=
  (coffeeStats data).map (fun p =>
    { name := p.1, count := p.2.count, revenue := p.2.revenue,
      avgPrice := toFixed2 p.2.avgPrice })

/-- Per-hour accumulator record (`{ orders, revenue }`, line 99). -/
structure HourStat where
  orders : ℕ
  revenue : ℚ
deriving DecidableEq, Repr

/-- Lines 96-104: the hourly grouping pass. -/
def hourlyStats (data : List SalesRecord) : List (ℕ × HourStat) :=
  groupFold (fun r => r.hour)
    (fun r s => { orders := s.orders + 1, revenue := s.revenue + r.money })
    { orders := 0, revenue := 0 } data

/-- One entry of `hourlyChartData` (the spec's `HourlyAggregate`).  The source
formats the hour as the string `` `${hour}:00` ``; the numeric hour is kept. -/
structure HourlyEntry where
  hour : ℕ
  orders : ℕ
  revenue : ℚ
deriving DecidableEq, Repr

/-- Lines 106-109: `Array.from({length: 24}, (_, hour) => ({...}))` — one
entry per hour 0..23, indexing `hourlyStats` with `?. ... || 0` defaults. -/
def hourlyBase (data : List SalesRecord) : List HourlyEntry :=
  (List.range 24).map (fun h =>
    { hour := h,
      orders := ((alookup h (hourlyStats data)).map (fun s => s.orders)).getD 0,
      revenue := ((alookup h (hourlyStats data)).map (fun s => s.revenue)).getD 0 })

/-- Line 110: the 24-slot array filtered by `item => item.orders > 0`. -/
def hourlyChartData (data : List SalesRecord) : List HourlyEntry :=
  (hourlyBase data).filter (fun e => decide (0 < e.orders))

/-- Per-payment-method accumulator record (`{ count, revenue }`, line 116). -/
structure PayStat where
  count : ℕ
  revenue : ℚ
deriving DecidableEq, Repr

/-- Lines 113-121: the payment-method grouping pass. -/
def paymentStats (data : List SalesRecord) : List (String × PayStat) :=
  groupFold (fun r => r.cash_type)
    (fun r s => { count := s.count + 1, revenue := s.revenue + r.money })
    { count := 0, revenue := 0 } data

/-- One entry of `paymentChartData` (the spec's `PaymentAggregate`).  The
source formats `percentage` as the string `toFixed(1)`; the numeric value of
that display string is kept. -/
structure PaymentEntry where
  method : String
  count : ℕ
  revenue : ℚ
  percentage : ℚ
deriving DecidableEq, Repr

/-- Lines 123-128: `Object.entries(paymentStats).map(...)` with
`percentage = ((stats.count / totalOrders) * 100).toFixed(1)`. -/
def paymentChartData (data : List SalesRecord) : List PaymentEntry :=
  (paymentStats data).map (fun p =>
    { method := p.1, count := p.2.count, revenue := p.2.revenue,
      percentage := toFixed1 ((p.2.count : ℚ) / (data.length : ℚ) * 100) })

/-- Lines 131-135: `customerId → orderCount` accumulation
(`acc[customer] = (acc[customer] || 0) + 1`). -/
def customerFrequency (data : List SalesRecord) : List (String × ℕ) :=
  groupFold (fun r => r.card) (fun _ n => n + 1) 0 data

/-- Lines 138-140: the bucket label chosen for one customer's order count. -/
def bucketLabel (frequency : ℕ) : String :=
  if frequency = 1 then ("1 order")
  else if frequency ≤ 3 then ("2-3 orders")
  else if frequency ≤ 5 then ("4-5 orders")
  else ("6+ orders")

/-- Lines 137-143: `Object.values(customerFrequency).reduce(...)` bucketing
each customer's total order count. -/
def frequencyDistribution (data : List SalesRecord) : List (String × ℕ) :=
  groupFold bucketLabel (fun _ n => n + 1) 0
    ((customerFrequency data).map (fun p => p.2))

/-- One entry of `customerFrequencyData` (the spec's `FrequencyBucket`). -/
structure FreqEntry where
  bucket : String
  customers : ℕ
deriving DecidableEq, Repr

/-- Lines 145-148: `Object.entries(frequencyDistribution).map(...)`. -/
def customerFrequencyData (data : List SalesRecord) : List FreqEntry :=
  (frequencyDistribution data).map (fun p => { bucket := p.1, customers := p.2 })

/-- One entry of `priceVolumeData` (the spec's `PriceVolumePoint`). -/
structure PriceVolumePoint where
  coffee : String
  price : ℚ
  volume : ℕ
deriving DecidableEq, Repr

/-- Lines 151-155: `coffeeChartData.map(...)`. -/
def priceVolumeData (data : List SalesRecord) : List PriceVolumePoint :=
  (coffeeChartData data).map (fun e =>
    { coffee := e.name, price := e.avgPrice, volume := e.count })

/-- The spec's `AnalyticsResult` (the object returned at lines 157-167). -/
structure AnalyticsResult where
  totalRevenue : ℚ
  totalOrders : ℕ
  avgOrderValue : ℚ
  uniqueCustomers : ℕ
  coffeeChartData : List CoffeeEntry
  hourlyChartData : List HourlyEntry
  paymentChartData : List PaymentEntry
  customerFrequencyData : List FreqEntry
  priceVolumeData : List PriceVolumePoint
deriving DecidableEq, Repr

/-- Lines 67-168: the whole `analytics` memo.  `if (data.length === 0) return
null` (line 68) is the spec's `EmptyInputError`: no result is produced. -/
def analytics (data : List SalesRecord) : Option AnalyticsResult :=
  if data.length = 0 then none
  else some
    { totalRevenue := totalRevenue data,
      totalOrders := totalOrders data,
      avgOrderValue := totalRevenue data / (data.length : ℚ),
      uniqueCustomers := uniqueCustomers data,
      coffeeChartData := coffeeChartData data,
      hourlyChartData := hourlyChartData data,
      paymentChartData := paymentChartData data,
      customerFrequencyData := customerFrequencyData data,
      priceVolumeData := priceVolumeData data }

/-- The reduce callback of the top-product insight (lines 459-461):
`(top, current) => current.revenue > top.revenue ? current : top`. -/
def topStep (top current : CoffeeEntry) : CoffeeEntry :=
  if top.revenue < current.revenue then current else top

/-- Lines 459-461: `analytics.coffeeChartData.reduce(topStep)` — JS `reduce`
without an initial value seeds with the first element (and throws on an empty
array, hence `Option`). -/
def topProduct (entries : List CoffeeEntry) : Option CoffeeEntry :=
  match entries with
  | [] => none
  | x :: xs => some (xs.foldl topStep x)

/-- Modelled from the spec glossary: "First-seen order: the order in which
distinct key values are first encountered while scanning the input once." -/
def firstSeen {α : Type} [DecidableEq α] (l : List α) : List α :=
  l.foldl (fun acc a => if a ∈ acc then acc else acc ++ [a]) []

/-- Modelled from the spec (§4.1): the bucket thresholds as the spec words
them — `1` → "1 order"; `2` or `3` → "2-3 orders"; `4` or `5` →
"4-5 orders"; `>= 6` → "6+ orders". -/
def specBucket (n : ℕ) : String :=
  if n = 1 then ("1 order")
  else if n = 2 ∨ n = 3 then ("2-3 orders")
  else if n = 4 ∨ n = 5 then ("4-5 orders")
  else ("6+ orders")

/-- The number of input records whose timestamp falls in hour `h` (the spec's
`HourlyAggregate.orderCount` for that hour). -/
def hourOrders (h : ℕ) (data : List SalesRecord) : ℕ :=
  (data.filter (fun r => decide (r.hour = h))).length

/-- A record literal for concrete test inputs. -/
def mkRec (coffee method customer : String) (amount : ℚ) (h : ℕ) : SalesRecord :=
  { date := "", datetime := "", cash_type := method, card := customer,
    money := amount, coffee_name := coffee, hour := h }

/-- Scenario A of the spec (§8): three records, two products, two payment
methods, two customers, two hours. -/
def exA : List SalesRecord :=
  [mkRec ("Latte") ("cash") ("c1") 3 8,
   mkRec ("Latte") ("card") ("c2") 3 8,
   mkRec ("Espresso") ("cash") ("c1") 2 9]

/-- Two products tied at the maximum revenue (Scenario B of the spec). -/
def exTie : List SalesRecord :=
  [mkRec ("Latte") ("cash") ("c1") 3 8,
   mkRec ("Mocha") ("cash") ("c1") 3 9]

/-- Sixteen records over four payment methods with counts 13, 1, 1, 1: every exact
share percentage ends in .25 or .75 of a percent, so each `toFixed(1)` value
rounds up by 0.05. -/
def ex6 : List SalesRecord :=
  List.replicate 13 (mkRec ("A") ("m0") ("c") 1 8) ++
    [mkRec ("A") ("m1") ("c") 1 8, mkRec ("A") ("m2") ("c") 1 8,
     mkRec ("A") ("m3") ("c") 1 8]

lemma upsert_map_fst {α β : Type} [DecidableEq α] (k : α) (f : β → β) (d : β)
    (acc : List (α × β)) :
    (upsert k f d acc).map Prod.fst =
      if k ∈ acc.map Prod.fst then acc.map Prod.fst else acc.map Prod.fst ++ [k] := by
  induction acc with
  | nil => simp [upsert]
  | cons p rest ih =>
    obtain ⟨a, b⟩ := p
    by_cases hk : k = a
    · subst hk
      simp [upsert]
    · simp only [upsert, if_neg hk, List.map_cons, List.mem_cons]
      by_cases hm : k ∈ rest.map Prod.fst
      · simp [hm, ih]
      · simp [hm, ih, hk]

lemma sum_map_upsert {α β M : Type} [DecidableEq α] [AddCommMonoid M]
    (m : β → M) (c : M) (k : α) (f : β → β) (d : β)
    (hf : ∀ v, m (f v) = m v + c) (hd : m d = 0) (acc : List (α × β)) :
    ((upsert k f d acc).map (fun p => m p.2)).sum
      = (acc.map (fun p => m p.2)).sum + c := by
  induction acc with
  | nil => simp [upsert, hf, hd]
  | cons p rest ih =>
    obtain ⟨a, b⟩ := p
    by_cases hk : k = a
    · simp only [upsert, if_pos hk, List.map_cons, List.sum_cons, hf]
      rw [add_right_comm]
    · simp only [upsert, if_neg hk, List.map_cons, List.sum_cons, ih]
      rw [add_assoc]

lemma mem_upsert_snd {α β : Type} [DecidableEq α] (P : β → Prop) (k : α)
    (f : β → β) (d : β) (hf : ∀ v, P (f v)) (acc : List (α × β))
    (hacc : ∀ p ∈ acc, P p.2) :
    ∀ p ∈ upsert k f d acc, P p.2 := by
  induction acc with
  | nil =>
    intro p hp
    simp [upsert] at hp
    simp [hp, hf]
  | cons q rest ih =>
    obtain ⟨a, b⟩ := q
    by_cases hk : k = a
    · intro p hp
      simp only [upsert, if_pos hk, List.mem_cons] at hp
      rcases hp with hp | hp
      · simp [hp, hf]
      · exact hacc p (List.mem_cons_of_mem _ hp)
    · intro p hp
      simp only [upsert, if_neg hk, List.mem_cons] at hp
      rcases hp with hp | hp
      · exact hp ▸ hacc (a, b) (List.mem_cons_self _ _)
      · exact ih (fun q hq => hacc q (List.mem_cons_of_mem _ hq)) p hp

lemma alookup_upsert {α β : Type} [DecidableEq α] (q k : α) (f : β → β) (d : β)
    (acc : List (α × β)) :
    alookup q (upsert k f d acc) =
      if q = k then some (f ((alookup k acc).getD d)) else alookup q acc := by
  induction acc with
  | nil =>
    by_cases hq : q = k <;> simp [upsert, alookup, hq]
  | cons p rest ih =>
    obtain ⟨a, b⟩ := p
    by_cases hk : k = a
    · subst hk
      by_cases hq : q = k <;> simp [upsert, alookup, hq]
    · simp only [upsert, if_neg hk]
      by_cases hq : q = a
      · have hak : ¬ a = k := fun h => hk h.symm
        have hqk : ¬ q = k := hq ▸ hak
        simp [alookup, hq, hqk, hak, hk]
      · simp [alookup, hq, ih, hk]

lemma mem_foldl_ins {α : Type} [DecidableEq α] (l : List α) (acc : List α) (x : α) :
    (x ∈ l.foldl (fun acc a => if a ∈ acc then acc else acc ++ [a]) acc)
      ↔ x ∈ acc ∨ x ∈ l := by
  induction l generalizing acc with
  | nil => simp
  | cons a t ih =>
    simp only [List.foldl_cons, ih, List.mem_cons]
    by_cases h : a ∈ acc
    · have hxa : x = a → x ∈ acc := fun e => e ▸ h
      simp only [if_pos h]
      constructor
      · rintro (hx | hx)
        · exact Or.inl hx
        · exact Or.inr (Or.inr hx)
      · rintro (hx | hx | hx)
        · exact Or.inl hx
        · exact Or.inl (hxa hx)
        · exact Or.inr hx
    · simp only [if_neg h, List.mem_append, List.mem_singleton]
      rw [or_assoc]

lemma nodup_foldl_ins {α : Type} [DecidableEq α] (l : List α) (acc : List α)
    (h : acc.Nodup) :
    (l.foldl (fun acc a => if a ∈ acc then acc else acc ++ [a]) acc).Nodup := by
  induction l generalizing acc with
  | nil => simpa using h
  | cons a t ih =>
    simp only [List.foldl_cons]
    by_cases ha : a ∈ acc
    · rw [if_pos ha]
      exact ih acc h
    · rw [if_neg ha]
      apply ih
      simp [List.nodup_append, h, ha]

lemma mem_firstSeen {α : Type} [DecidableEq α] (l : List α) (x : α) :
    x ∈ firstSeen l ↔ x ∈ l := by
  simp [firstSeen, mem_foldl_ins]

lemma firstSeen_nodup {α : Type} [DecidableEq α] (l : List α) :
    (firstSeen l).Nodup :=
  nodup_foldl_ins l [] List.nodup_nil

lemma firstSeen_length_eq_dedup {α : Type} [DecidableEq α] (l : List α) :
    (firstSeen l).length = l.dedup.length := by
  have hperm : List.Perm (firstSeen l) l.dedup := by
    rw [List.perm_ext_iff_of_nodup (firstSeen_nodup l) l.nodup_dedup]
    intro a
    rw [mem_firstSeen, List.mem_dedup]
  exact hperm.length_eq

lemma foldl_upsert_map_fst {σ α β : Type} [DecidableEq α] (key : σ → α)
    (F : σ → β → β) (D : β) (data : List σ) (acc : List (α × β)) :
    ((data.foldl (fun a x => upsert (key x) (F x) D a) acc).map Prod.fst)
      = (data.map key).foldl (fun ks a => if a ∈ ks then ks else ks ++ [a])
          (acc.map Prod.fst) := by
  induction data generalizing acc with
  | nil => simp
  | cons x xs ih =>
    simp only [List.foldl_cons, List.map_cons]
    rw [ih, upsert_map_fst]

lemma groupFold_map_fst {σ α β : Type} [DecidableEq α] (key : σ → α)
    (F : σ → β → β) (D : β) (data : List σ) :
    (groupFold key F D data).map Prod.fst = firstSeen (data.map key) := by
  simpa [groupFold, firstSeen] using foldl_upsert_map_fst key F D data []

lemma foldl_upsert_sum {σ α β M : Type} [DecidableEq α] [AddCommMonoid M]
    (key : σ → α) (F : σ → β → β) (D : β) (m : β → M) (c : σ → M)
    (hf : ∀ x v, m (F x v) = m v + c x) (hd : m D = 0)
    (data : List σ) (acc : List (α × β)) :
    ((data.foldl (fun a x => upsert (key x) (F x) D a) acc).map (fun p => m p.2)).sum
      = (acc.map (fun p => m p.2)).sum + (data.map c).sum := by
  induction data generalizing acc with
  | nil => simp
  | cons x xs ih =>
    simp only [List.foldl_cons, List.map_cons, List.sum_cons]
    rw [ih, sum_map_upsert m (c x) (key x) (F x) D (hf x) hd, add_assoc]

lemma groupFold_sum {σ α β M : Type} [DecidableEq α] [AddCommMonoid M]
    (key : σ → α) (F : σ → β → β) (D : β) (m : β → M) (c : σ → M)
    (hf : ∀ x v, m (F x v) = m v + c x) (hd : m D = 0) (data : List σ) :
    ((groupFold key F D data).map (fun p => m p.2)).sum = (data.map c).sum := by
  simpa [groupFold] using foldl_upsert_sum key F D m c hf hd data []

lemma groupFold_values {σ α β : Type} [DecidableEq α] (key : σ → α)
    (F : σ → β → β) (D : β) (P : β → Prop) (hf : ∀ x v, P (F x v))
    (data : List σ) :
    ∀ p ∈ groupFold key F D data, P p.2 := by
  suffices h : ∀ acc : List (α × β), (∀ p ∈ acc, P p.2) →
      ∀ p ∈ data.foldl (fun a x => upsert (key x) (F x) D a) acc, P p.2 by
    exact h [] (by simp)
  induction data with
  | nil => intro acc hacc; simpa using hacc
  | cons x xs ih =>
    intro acc hacc
    simp only [List.foldl_cons]
    exact ih _ (mem_upsert_snd P (key x) (F x) D (hf x) acc hacc)

lemma foldl_upsert_alookup {σ α β M : Type} [DecidableEq α] [AddCommMonoid M]
    (key : σ → α) (F : σ → β → β) (D : β) (m : β → M) (c : σ → M)
    (hf : ∀ x v, m (F x v) = m v + c x) (hd : m D = 0) (k : α)
    (data : List σ) (acc : List (α × β)) :
    ((alookup k (data.foldl (fun a x => upsert (key x) (F x) D a) acc)).map m).getD 0
      = ((alookup k acc).map m).getD 0
        + ((data.filter (fun x => decide (key x = k))).map c).sum := by
  induction data generalizing acc with
  | nil => simp
  | cons x xs ih =>
    simp only [List.foldl_cons]
    rw [ih]
    by_cases hx : key x = k
    · have h1 : ((alookup k (upsert (key x) (F x) D acc)).map m).getD 0
          = ((alookup k acc).map m).getD 0 + c x := by
        rw [alookup_upsert, if_pos hx.symm, hx]
        cases halt : alookup k acc with
        | none => simp [halt, hf, hd]
        | some v => simp [halt, hf]
      rw [h1, List.filter_cons, if_pos (by simpa using hx), List.map_cons,
        List.sum_cons, add_assoc]
    · rw [alookup_upsert, if_neg (fun h => hx h.symm), List.filter_cons,
        if_neg (by simpa using hx)]

lemma groupFold_alookup {σ α β M : Type} [DecidableEq α] [AddCommMonoid M]
    (key : σ → α) (F : σ → β → β) (D : β) (m : β → M) (c : σ → M)
    (hf : ∀ x v, m (F x v) = m v + c x) (hd : m D = 0) (k : α) (data : List σ) :
    ((alookup k (groupFold key F D data)).map m).getD 0
      = ((data.filter (fun x => decide (key x = k))).map c).sum := by
  simpa [groupFold, alookup] using foldl_upsert_alookup key F D m c hf hd k data []

lemma foldl_add_money (data : List SalesRecord) (a : ℚ) :
    data.foldl (fun s r => s + r.money) a = a + (data.map (fun r => r.money)).sum := by
  induction data generalizing a with
  | nil => simp
  | cons x xs ih => simp [ih, add_assoc]

lemma totalRevenue_eq_sum (data : List SalesRecord) :
    totalRevenue data = (data.map (fun r => r.money)).sum := by
  simp [totalRevenue, foldl_add_money]

lemma sum_map_one {γ : Type} (l : List γ) : (l.map (fun _ => (1 : ℕ))).sum = l.length := by
  induction l with
  | nil => rfl
  | cons x xs ih => simp [ih, Nat.add_comm]

lemma list_range_sum_eq {M : Type} [AddCommMonoid M] (f : ℕ → M) (n : ℕ) :
    ((List.range n).map f).sum = ∑ h ∈ Finset.range n, f h := by
  induction n with
  | zero => simp
  | succ n ih =>
    rw [List.range_succ, Finset.sum_range_succ, List.map_append, List.sum_append]
    simp [ih]

lemma sum_range_filter_length {σ : Type} (key : σ → ℕ) (n : ℕ) (l : List σ)
    (hlt : ∀ x ∈ l, key x < n) :
    ((List.range n).map (fun h => (l.filter (fun x => decide (key x = h))).length)).sum
      = l.length := by
  induction l with
  | nil => simp
  | cons x xs ih =>
    have hx : key x < n := hlt x (by simp)
    have ihs := ih (fun y hy => hlt y (by simp [hy]))
    rw [list_range_sum_eq] at ihs ⊢
    calc ∑ h ∈ Finset.range n, ((x :: xs).filter (fun y => decide (key y = h))).length
        = ∑ h ∈ Finset.range n,
            ((xs.filter (fun y => decide (key y = h))).length + if h = key x then 1 else 0) := by
          refine Finset.sum_congr rfl (fun h _ => ?_)
          by_cases hk : key x = h
          · simp [List.filter_cons, hk]
          · simp [List.filter_cons, hk, Ne.symm hk]
      _ = xs.length + 1 := by
          rw [Finset.sum_add_distrib, ihs,
            Finset.sum_ite_eq' (Finset.range n) (key x) (fun _ => 1),
            if_pos (Finset.mem_range.mpr hx)]
      _ = (x :: xs).length := by simp

lemma sum_map_filter_pos {γ : Type} (f : γ → ℕ) (l : List γ) :
    ((l.filter (fun a => decide (0 < f a))).map f).sum = (l.map f).sum := by
  induction l with
  | nil => rfl
  | cons x xs ih =>
    by_cases h : 0 < f x
    · simp [List.filter_cons, h, ih]
    · have h0 : f x = 0 := by omega
      simp [List.filter_cons, h, ih, h0]

lemma abs_toFixed1_sub (q : ℚ) : |toFixed1 q - q| ≤ 1 / 20 := by
  rw [toFixed1, abs_le]
  have h1 : ((⌊q * 10 + 1 / 2⌋ : ℤ) : ℚ) ≤ q * 10 + 1 / 2 := Int.floor_le _
  have h2 : q * 10 + 1 / 2 - 1 < ((⌊q * 10 + 1 / 2⌋ : ℤ) : ℚ) := Int.sub_one_lt_floor _
  constructor <;> [linarith; linarith]

lemma abs_sum_toFixed1_sub (l : List ℚ) :
    |(l.map toFixed1).sum - l.sum| ≤ (l.length : ℚ) / 20 := by
  induction l with
  | nil => simp
  | cons x xs ih =>
    simp only [List.map_cons, List.sum_cons, List.length_cons]
    have hx := abs_toFixed1_sub x
    calc |toFixed1 x + (xs.map toFixed1).sum - (x + xs.sum)|
        = |(toFixed1 x - x) + ((xs.map toFixed1).sum - xs.sum)| := by ring_nf
      _ ≤ |toFixed1 x - x| + |(xs.map toFixed1).sum - xs.sum| := abs_add _ _
      _ ≤ 1 / 20 + (xs.length : ℚ) / 20 := add_le_add hx ih
      _ = ((xs.length : ℚ) + 1) / 20 := by ring
      _ = (((xs.length + 1 : ℕ)) : ℚ) / 20 := by push_cast; ring

lemma sum_map_div_mul {γ : Type} (g : γ → ℚ) (T c : ℚ) (l : List γ) :
    (l.map (fun a => g a / T * c)).sum = (l.map g).sum / T * c := by
  induction l with
  | nil => simp
  | cons x xs ih =>
    simp only [List.map_cons, List.sum_cons, ih]
    ring

lemma sum_map_natCast {γ : Type} (g : γ → ℕ) (l : List γ) :
    (l.map (fun a => ((g a : ℕ) : ℚ))).sum = (((l.map g).sum : ℕ) : ℚ) := by
  induction l with
  | nil => simp
  | cons x xs ih => simp [ih]

lemma coffee_count_sum (data : List SalesRecord) :
    ((coffeeStats data).map (fun p => p.2.count)).sum = data.length := by
  rw [show ((coffeeStats data).map (fun p => p.2.count)).sum
      = ((coffeeStats data).map (fun p => (fun s : CoffeeStat => s.count) p.2)).sum from rfl,
    coffeeStats, groupFold_sum _ _ _ (fun s : CoffeeStat => s.count) (fun _ => 1)
      (fun x v => rfl) rfl, sum_map_one]

lemma coffee_revenue_sum (data : List SalesRecord) :
    ((coffeeStats data).map (fun p => p.2.revenue)).sum = (data.map (fun r => r.money)).sum := by
  rw [show ((coffeeStats data).map (fun p => p.2.revenue)).sum
      = ((coffeeStats data).map (fun p => (fun s : CoffeeStat => s.revenue) p.2)).sum from rfl,
    coffeeStats, groupFold_sum _ _ _ (fun s : CoffeeStat => s.revenue) (fun r => r.money)
      (fun x v => rfl) rfl]

lemma payment_count_sum (data : List SalesRecord) :
    ((paymentStats data).map (fun p => p.2.count)).sum = data.length := by
  rw [show ((paymentStats data).map (fun p => p.2.count)).sum
      = ((paymentStats data).map (fun p => (fun s : PayStat => s.count) p.2)).sum from rfl,
    paymentStats, groupFold_sum _ _ _ (fun s : PayStat => s.count) (fun _ => 1)
      (fun x v => rfl) rfl, sum_map_one]

lemma payment_revenue_sum (data : List SalesRecord) :
    ((paymentStats data).map (fun p => p.2.revenue)).sum = (data.map (fun r => r.money)).sum := by
  rw [show ((paymentStats data).map (fun p => p.2.revenue)).sum
      = ((paymentStats data).map (fun p => (fun s : PayStat => s.revenue) p.2)).sum from rfl,
    paymentStats, groupFold_sum _ _ _ (fun s : PayStat => s.revenue) (fun r => r.money)
      (fun x v => rfl) rfl]

lemma frequency_count_sum (data : List SalesRecord) :
    ((frequencyDistribution data).map (fun p => p.2)).sum
      = (customerFrequency data).length := by
  rw [show ((frequencyDistribution data).map (fun p => p.2)).sum
      = ((frequencyDistribution data).map (fun p => (fun n : ℕ => n) p.2)).sum from rfl,
    frequencyDistribution, groupFold_sum _ _ _ (fun n : ℕ => n) (fun _ => 1)
      (fun x v => rfl) rfl, sum_map_one, List.length_map]

lemma hourly_lookup_orders (data : List SalesRecord) (h : ℕ) :
    ((alookup h (hourlyStats data)).map (fun s => s.orders)).getD 0 = hourOrders h data := by
  rw [hourlyStats, hourOrders,
    groupFold_alookup _ _ _ (fun s : HourStat => s.orders) (fun _ => 1) (fun x v => rfl) rfl,
    sum_map_one]

lemma coffeeChart_map_count (data : List SalesRecord) :
    (coffeeChartData data).map (fun e => e.count)
      = (coffeeStats data).map (fun p => p.2.count) := by
  simp only [coffeeChartData, List.map_map]
  rfl

lemma coffeeChart_map_revenue (data : List SalesRecord) :
    (coffeeChartData data).map (fun e => e.revenue)
      = (coffeeStats data).map (fun p => p.2.revenue) := by
  simp only [coffeeChartData, List.map_map]
  rfl

lemma coffeeChart_map_name (data : List SalesRecord) :
    (coffeeChartData data).map (fun e => e.name)
      = (coffeeStats data).map Prod.fst := by
  simp only [coffeeChartData, List.map_map]
  rfl

lemma paymentChart_map_count (data : List SalesRecord) :
    (paymentChartData data).map (fun e => e.count)
      = (paymentStats data).map (fun p => p.2.count) := by
  simp only [paymentChartData, List.map_map]
  rfl

lemma paymentChart_map_revenue (data : List SalesRecord) :
    (paymentChartData data).map (fun e => e.revenue)
      = (paymentStats data).map (fun p => p.2.revenue) := by
  simp only [paymentChartData, List.map_map]
  rfl

lemma paymentChart_map_method (data : List SalesRecord) :
    (paymentChartData data).map (fun e => e.method)
      = (paymentStats data).map Prod.fst := by
  simp only [paymentChartData, List.map_map]
  rfl

lemma freqChart_map_customers (data : List SalesRecord) :
    (customerFrequencyData data).map (fun e => e.customers)
      = (frequencyDistribution data).map (fun p => p.2) := by
  simp only [customerFrequencyData, List.map_map]
  rfl

lemma freqChart_map_bucket (data : List SalesRecord) :
    (customerFrequencyData data).map (fun e => e.bucket)
      = (frequencyDistribution data).map Prod.fst := by
  simp only [customerFrequencyData, List.map_map]
  rfl

lemma coffee_counts_pos (data : List SalesRecord) :
    ∀ e ∈ coffeeChartData data, 1 ≤ e.count := by
  intro e he
  simp only [coffeeChartData, List.mem_map] at he
  obtain ⟨p, hp, rfl⟩ := he
  have := groupFold_values (fun r : SalesRecord => r.coffee_name)
    (fun r s =>
      { count := s.count + 1, revenue := s.revenue + r.money,
        avgPrice := (s.revenue + r.money) / ((s.count : ℚ) + 1) })
    { count := 0, revenue := 0, avgPrice := 0 }
    (fun s : CoffeeStat => 1 ≤ s.count) (fun x v => by simp) data
  exact this p (by rwa [coffeeStats] at hp)

lemma payment_counts_pos (data : List SalesRecord) :
    ∀ e ∈ paymentChartData data, 1 ≤ e.count := by
  intro e he
  simp only [paymentChartData, List.mem_map] at he
  obtain ⟨p, hp, rfl⟩ := he
  have := groupFold_values (fun r : SalesRecord => r.cash_type)
    (fun r s => { count := s.count + 1, revenue := s.revenue + r.money })
    { count := 0, revenue := 0 }
    (fun s : PayStat => 1 ≤ s.count) (fun x v => by simp) data
  exact this p (by rwa [paymentStats] at hp)

lemma freq_counts_pos (data : List SalesRecord) :
    ∀ e ∈ customerFrequencyData data, 1 ≤ e.customers := by
  intro e he
  simp only [customerFrequencyData, List.mem_map] at he
  obtain ⟨p, hp, rfl⟩ := he
  have := groupFold_values bucketLabel (fun _ n => n + 1) 0
    (fun n : ℕ => 1 ≤ n) (fun x v => by show 1 ≤ v + 1; omega)
    ((customerFrequency data).map (fun p => p.2))
  exact this p (by rwa [frequencyDistribution] at hp)

lemma coffee_avg_invariant (data : List SalesRecord) :
    ∀ p ∈ coffeeStats data, p.2.avgPrice = p.2.revenue / (p.2.count : ℚ) := by
  have := groupFold_values (fun r : SalesRecord => r.coffee_name)
    (fun r s =>
      { count := s.count + 1, revenue := s.revenue + r.money,
        avgPrice := (s.revenue + r.money) / ((s.count : ℚ) + 1) })
    { count := 0, revenue := 0, avgPrice := 0 }
    (fun s : CoffeeStat => s.avgPrice = s.revenue / (s.count : ℚ))
    (fun x v => by push_cast; rfl) data
  intro p hp
  exact this p (by rwa [coffeeStats] at hp)

lemma coffeeStats_ne_nil (data : List SalesRecord) (h : data ≠ []) :
    coffeeStats data ≠ [] := by
  cases data with
  | nil => exact absurd rfl h
  | cons r rs =>
    intro hc
    have hmem : r.coffee_name ∈ (coffeeStats (r :: rs)).map Prod.fst := by
      rw [coffeeStats, groupFold_map_fst, mem_firstSeen]
      simp
    rw [hc] at hmem
    simp at hmem

lemma foldl_topStep_spec (xs : List CoffeeEntry) : ∀ x : CoffeeEntry,
    (∀ q ∈ x :: xs, q.revenue ≤ (xs.foldl topStep x).revenue)
    ∧ ∃ l₁ l₂, x :: xs = l₁ ++ (xs.foldl topStep x) :: l₂
        ∧ ∀ q ∈ l₁, q.revenue < (xs.foldl topStep x).revenue := by
  induction xs with
  | nil =>
    intro x
    refine ⟨?_, [], [], by simp, by simp⟩
    intro q hq
    simp only [List.foldl_nil]
    simp only [List.mem_singleton] at hq
    simp [hq]
  | cons y ys ih =>
    intro x
    simp only [List.foldl_cons]
    by_cases h : x.revenue < y.revenue
    · have hstep : topStep x y = y := if_pos h
      rw [hstep]
      obtain ⟨hle, l₁, l₂, hsplit, hlt⟩ := ih y
      have hyr : y.revenue ≤ (ys.foldl topStep y).revenue := hle y (by simp)
      refine ⟨?_, x :: l₁, l₂, ?_, ?_⟩
      · intro q hq
        rcases List.mem_cons.mp hq with hq | hq
        · exact hq ▸ le_of_lt (lt_of_lt_of_le h hyr)
        · exact hle q hq
      · rw [List.cons_append, ← hsplit]
      · intro q hq
        rcases List.mem_cons.mp hq with hq | hq
        · exact hq ▸ lt_of_lt_of_le h hyr
        · exact hlt q hq
    · have hstep : topStep x y = x := if_neg h
      rw [hstep]
      obtain ⟨hle, l₁, l₂, hsplit, hlt⟩ := ih x
      have hyx : y.revenue ≤ x.revenue := le_of_not_lt h
      have hxr : x.revenue ≤ (ys.foldl topStep x).revenue := hle x (by simp)
      constructor
      · intro q hq
        rcases List.mem_cons.mp hq with hq | hq
        · exact hq ▸ hxr
        rcases List.mem_cons.mp hq with hq | hq
        · exact hq ▸ le_trans hyx hxr
        · exact hle q (List.mem_cons_of_mem _ hq)
      · cases l₁ with
        | nil =>
          simp only [List.nil_append] at hsplit
          have hr : ys.foldl topStep x = x := by
            have := List.head_eq_of_cons_eq hsplit.symm
            exact this
          refine ⟨[], y :: ys, ?_, by simp⟩
          rw [hr, List.nil_append]
        | cons a t =>
          rw [List.cons_append] at hsplit
          have ha : a = x := (List.head_eq_of_cons_eq hsplit).symm
          have htail : ys = t ++ (ys.foldl topStep x) :: l₂ :=
            List.tail_eq_of_cons_eq hsplit
          have hxlt : x.revenue < (ys.foldl topStep x).revenue := by
            have := hlt a (by simp)
            rwa [ha] at this
          refine ⟨x :: y :: t, l₂, ?_, ?_⟩
          · rw [List.cons_append, List.cons_append, ← htail]
          · intro q hq
            rcases List.mem_cons.mp hq with hq | hq
            · exact hq ▸ hxlt
            rcases List.mem_cons.mp hq with hq | hq
            · exact hq ▸ lt_of_le_of_lt hyx hxlt
            · exact hlt q (List.mem_cons_of_mem _ hq)

lemma topProduct_spec (entries : List CoffeeEntry) (hne : entries ≠ []) :
    ∃ p, topProduct entries = some p
      ∧ (∀ q ∈ entries, q.revenue ≤ p.revenue)
      ∧ ∃ l₁ l₂, entries = l₁ ++ p :: l₂ ∧ ∀ q ∈ l₁, q.revenue < p.revenue := by
  cases entries with
  | nil => exact absurd rfl hne
  | cons x xs =>
    obtain ⟨hle, l₁, l₂, hsplit, hlt⟩ := foldl_topStep_spec xs x
    exact ⟨xs.foldl topStep x, rfl, hle, l₁, l₂, hsplit, hlt⟩

lemma hourlyBase_map_orders (data : List SalesRecord) :
    (hourlyBase data).map (fun e => e.orders)
      = (List.range 24).map (fun h =>
          ((alookup h (hourlyStats data)).map (fun s => s.orders)).getD 0) := by
  rw [hourlyBase, List.map_map]
  rfl

lemma hourlyBase_map_hour (data : List SalesRecord) :
    (hourlyBase data).map (fun e => e.hour) = List.range 24 := by
  rw [hourlyBase, List.map_map]
  exact List.map_id _

lemma hourly_hours_sublist (data : List SalesRecord) :
    List.Sublist ((hourlyChartData data).map (fun e => e.hour)) (List.range 24) := by
  rw [← hourlyBase_map_hour data, hourlyChartData]
  exact (List.filter_sublist (hourlyBase data)).map (fun e => e.hour)

/-- C1: on the empty input collection (zero records) the engine takes the
`data.length === 0` branch and produces no `AnalyticsResult` at all — the
"no result" signal the spec names `EmptyInputError` — rather than returning
degenerate zero/NaN aggregates. -/
theorem empty_input_no_result : analytics [] = none := rfl

/-- C2: `totalRevenue` equals the sum of the per-product revenues of the
products grouping and also the sum of the per-method revenues of the
payments grouping, for every input collection. -/
theorem revenue_conservation (data : List SalesRecord) :
    totalRevenue data = ((coffeeChartData data).map (fun e => e.revenue)).sum
    ∧ totalRevenue data = ((paymentChartData data).map (fun e => e.revenue)).sum := by
  constructor
  · rw [totalRevenue_eq_sum, coffeeChart_map_revenue, coffee_revenue_sum]
  · rw [totalRevenue_eq_sum, paymentChart_map_revenue, payment_revenue_sum]

lemma hourly_sum_filter (l : List HourlyEntry) :
    ((l.filter (fun e => decide (0 < e.orders))).map (fun e => e.orders)).sum
      = (l.map (fun e => e.orders)).sum :=
  sum_map_filter_pos (fun e => e.orders) l

lemma sum_range_hourOrders (data : List SalesRecord) (hh : ∀ r ∈ data, r.hour < 24) :
    ((List.range 24).map (fun h => hourOrders h data)).sum = data.length := by
  simp only [hourOrders]
  exact sum_range_filter_length SalesRecord.hour 24 data hh

/-- C3: when every record's hour lies in [0,23] (the input contract),
`totalOrders` equals the sum of the order counts across the products
grouping, across the payments grouping, and across the hourly grouping. -/
theorem orders_conservation (data : List SalesRecord)
    (hh : ∀ r ∈ data, r.hour < 24) :
    totalOrders data = ((coffeeChartData data).map (fun e => e.count)).sum
    ∧ totalOrders data = ((paymentChartData data).map (fun e => e.count)).sum
    ∧ totalOrders data = ((hourlyChartData data).map (fun e => e.orders)).sum := by
  refine ⟨?_, ?_, ?_⟩
  · rw [totalOrders, coffeeChart_map_count, coffee_count_sum]
  · rw [totalOrders, paymentChart_map_count, payment_count_sum]
  · rw [totalOrders, hourlyChartData, hourly_sum_filter, hourlyBase_map_orders]
    simp only [hourly_lookup_orders]
    exact (sum_range_hourOrders data hh).symm

/-- C3 witness: the conservation equalities hold on the concrete Scenario A
input, whose hours all lie in [0,23]. -/
theorem orders_conservation_witness :
    (∀ r ∈ exA, r.hour < 24)
    ∧ (totalOrders exA = ((coffeeChartData exA).map (fun e => e.count)).sum
       ∧ totalOrders exA = ((paymentChartData exA).map (fun e => e.count)).sum
       ∧ totalOrders exA = ((hourlyChartData exA).map (fun e => e.orders)).sum) :=
  ⟨by decide, orders_conservation exA (by decide)⟩

/-- C4: the products and payments sequences list their keys in first-seen
order — the order in which each distinct key value is first encountered while
scanning the input once — not sorted alphabetically. -/
theorem first_seen_order (data : List SalesRecord) :
    (coffeeChartData data).map (fun e => e.name)
        = firstSeen (data.map (fun r => r.coffee_name))
    ∧ (paymentChartData data).map (fun e => e.method)
        = firstSeen (data.map (fun r => r.cash_type)) := by
  constructor
  · rw [coffeeChart_map_name, coffeeStats, groupFold_map_fst]
  · rw [paymentChart_map_method, paymentStats, groupFold_map_fst]

/-- C5: on any non-empty input the top-product insight returns an entry of
the products sequence whose revenue is maximal, and every entry strictly
before it has strictly smaller revenue — i.e. it is the first maximum, so a
tie is resolved in favour of the entry appearing first (input order). -/
theorem top_product_first_max (data : List SalesRecord) (hne : data ≠ []) :
    ∃ p, topProduct (coffeeChartData data) = some p
      ∧ (∀ q ∈ coffeeChartData data, q.revenue ≤ p.revenue)
      ∧ ∃ l₁ l₂, coffeeChartData data = l₁ ++ p :: l₂
          ∧ ∀ q ∈ l₁, q.revenue < p.revenue := by
  apply topProduct_spec
  intro hc
  apply coffeeStats_ne_nil data hne
  rwa [coffeeChartData, List.map_eq_nil_iff] at hc

/-- C5 witness: on the concrete two-product input with tied maximal revenue
the insight picks the first-seen product. -/
theorem top_product_first_max_witness :
    exTie ≠ []
    ∧ ∃ p, topProduct (coffeeChartData exTie) = some p
        ∧ (∀ q ∈ coffeeChartData exTie, q.revenue ≤ p.revenue)
        ∧ ∃ l₁ l₂, coffeeChartData exTie = l₁ ++ p :: l₂
            ∧ ∀ q ∈ l₁, q.revenue < p.revenue :=
  ⟨by decide, top_product_first_max exTie (by decide)⟩

/-- C7: the frequency view buckets each distinct customer by its total order
count with the exact thresholds of the spec (1 / 2-3 / 4-5 / 6+), emits only
buckets holding at least one customer, and the bucket sizes add up to the
number of distinct customers. -/
theorem frequency_buckets (data : List SalesRecord) :
    (∀ n : ℕ, 1 ≤ n → bucketLabel n = specBucket n)
    ∧ ((customerFrequencyData data).map (fun e => e.customers)).sum
        = uniqueCustomers data
    ∧ ∀ e ∈ customerFrequencyData data, 1 ≤ e.customers := by
  refine ⟨?_, ?_, freq_counts_pos data⟩
  · intro n hn
    simp only [bucketLabel, specBucket]
    split_ifs <;> first | rfl | omega
  · have h1 : ((customerFrequency data).map Prod.fst).length
        = (customerFrequency data).length := List.length_map _ _
    rw [freqChart_map_customers, frequency_count_sum, ← h1, customerFrequency,
      groupFold_map_fst, firstSeen_length_eq_dedup, uniqueCustomers]

/-- C7 witness: the bucket properties instantiated at the concrete Scenario A
input (customer c1 has 2 orders, c2 has 1). -/
theorem frequency_buckets_witness :
    (∀ n : ℕ, 1 ≤ n → bucketLabel n = specBucket n)
    ∧ ((customerFrequencyData exA).map (fun e => e.customers)).sum
        = uniqueCustomers exA
    ∧ ∀ e ∈ customerFrequencyData exA, 1 ≤ e.customers :=
  frequency_buckets exA

/-- C8: under the input contract (hours in [0,23]) the hourly sequence is
strictly increasing in hour, and an hour appears in it exactly when its order
count over the input is positive (zero-order hours are omitted). -/
theorem hourly_sorted_sparse (data : List SalesRecord)
    (hh : ∀ r ∈ data, r.hour < 24) :
    ((hourlyChartData data).map (fun e => e.hour)).Pairwise (fun a b => a < b)
    ∧ ∀ h : ℕ, (∃ e ∈ hourlyChartData data, e.hour = h) ↔ 0 < hourOrders h data := by
  constructor
  · exact (List.pairwise_lt_range 24).sublist (hourly_hours_sublist data)
  · intro h
    constructor
    · rintro ⟨e, he, rfl⟩
      rw [hourlyChartData, List.mem_filter] at he
      obtain ⟨he1, he2⟩ := he
      have hpos : 0 < e.orders := of_decide_eq_true he2
      rw [hourlyBase] at he1
      obtain ⟨h', hh', rfl⟩ := List.mem_map.mp he1
      simpa [hourly_lookup_orders] using hpos
    · intro hpos
      have hex : ∃ r, r ∈ data.filter (fun r => decide (r.hour = h)) :=
        List.exists_mem_of_length_pos hpos
      obtain ⟨r, hr⟩ := hex
      rw [List.mem_filter] at hr
      have hrh : r.hour = h := of_decide_eq_true hr.2
      have hlt : h < 24 := hrh ▸ hh r hr.1
      refine ⟨{ hour := h,
                orders := ((alookup h (hourlyStats data)).map (fun s => s.orders)).getD 0,
                revenue := ((alookup h (hourlyStats data)).map (fun s => s.revenue)).getD 0 },
              ?_, rfl⟩
      rw [hourlyChartData, List.mem_filter]
      constructor
      · rw [hourlyBase]
        exact List.mem_map.mpr ⟨h, List.mem_range.mpr hlt, rfl⟩
      · apply decide_eq_true
        show 0 < ((alookup h (hourlyStats data)).map (fun s => s.orders)).getD 0
        rw [hourly_lookup_orders]
        exact hpos

/-- C8 witness: instantiated at the concrete Scenario A input (orders at
hours 8 and 9 only). -/
theorem hourly_sorted_sparse_witness :
    (∀ r ∈ exA, r.hour < 24)
    ∧ (((hourlyChartData exA).map (fun e => e.hour)).Pairwise (fun a b => a < b)
       ∧ ∀ h : ℕ, (∃ e ∈ hourlyChartData exA, e.hour = h) ↔ 0 < hourOrders h exA) :=
  ⟨by decide, hourly_sorted_sparse exA (by decide)⟩

/-- C9: the running average maintained during accumulation equals
`totalRevenue / orderCount` computed once after the pass, for every product
entry; the 2-decimal rounding is applied only once, when materializing the
chart entry from the accumulated aggregate. -/
theorem avg_price_once (data : List SalesRecord) (p : String × CoffeeStat)
    (hp : p ∈ coffeeStats data) :
    p.2.avgPrice = p.2.revenue / (p.2.count : ℚ)
    ∧ coffeeChartData data = (coffeeStats data).map (fun q =>
        { name := q.1, count := q.2.count, revenue := q.2.revenue,
          avgPrice := toFixed2 (q.2.revenue / (q.2.count : ℚ)) }) := by
  refine ⟨coffee_avg_invariant data p hp, ?_⟩
  rw [coffeeChartData]
  apply List.map_congr_left
  intro q hq
  rw [coffee_avg_invariant data q hq]

/-- C9 witness: instantiated at the Scenario A input and its Latte aggregate
(2 orders, revenue 6, running average 3). -/
theorem avg_price_once_witness :
    (("Latte", ({ count := 2, revenue := 6, avgPrice := 3 } : CoffeeStat)) ∈ coffeeStats exA)
    ∧ ((("Latte", ({ count := 2, revenue := 6, avgPrice := 3 } : CoffeeStat)).2.avgPrice
          = ("Latte", ({ count := 2, revenue := 6, avgPrice := 3 } : CoffeeStat)).2.revenue
            / ((("Latte", ({ count := 2, revenue := 6, avgPrice := 3 } : CoffeeStat)).2.count : ℚ))
        ∧ coffeeChartData exA = (coffeeStats exA).map (fun q =>
            { name := q.1, count := q.2.count, revenue := q.2.revenue,
              avgPrice := toFixed2 (q.2.revenue / (q.2.count : ℚ)) }))) :=
  by
  have hmem : ("Latte", ({ count := 2, revenue := 6, avgPrice := 3 } : CoffeeStat))
      ∈ coffeeStats exA := by
    have hstats : coffeeStats exA
        = [("Latte", { count := 2, revenue := 6, avgPrice := 3 }),
           ("Espresso", { count := 1, revenue := 2, avgPrice := 2 })] := by
      norm_num [coffeeStats, groupFold, exA, mkRec, upsert]
      decide
    rw [hstats]
    exact List.mem_cons_self _ _
  exact ⟨hmem, avg_price_once exA _ hmem⟩

/-- C10: every emitted group entry aggregates at least one record or customer
(counts ≥ 1), and within each output sequence the grouping keys — product
name, payment method, hour, bucket label — are pairwise distinct. -/
theorem group_invariants (data : List SalesRecord) :
    (∀ e ∈ coffeeChartData data, 1 ≤ e.count)
    ∧ (∀ e ∈ paymentChartData data, 1 ≤ e.count)
    ∧ (∀ e ∈ hourlyChartData data, 1 ≤ e.orders)
    ∧ (∀ e ∈ customerFrequencyData data, 1 ≤ e.customers)
    ∧ ((coffeeChartData data).map (fun e => e.name)).Nodup
    ∧ ((paymentChartData data).map (fun e => e.method)).Nodup
    ∧ ((hourlyChartData data).map (fun e => e.hour)).Nodup
    ∧ ((customerFrequencyData data).map (fun e => e.bucket)).Nodup := by
  refine ⟨coffee_counts_pos data, payment_counts_pos data, ?_, freq_counts_pos data,
    ?_, ?_, ?_, ?_⟩
  · intro e he
    rw [hourlyChartData, List.mem_filter] at he
    have := of_decide_eq_true he.2
    omega
  · rw [coffeeChart_map_name, coffeeStats, groupFold_map_fst]
    exact firstSeen_nodup _
  · rw [paymentChart_map_method, paymentStats, groupFold_map_fst]
    exact firstSeen_nodup _
  · exact (List.nodup_range 24).sublist (hourly_hours_sublist data)
  · rw [freqChart_map_bucket, frequencyDistribution, groupFold_map_fst]
    exact firstSeen_nodup _

/-- C10 witness: the invariants instantiated at the concrete Scenario A
input. -/
theorem group_invariants_witness :
    (∀ e ∈ coffeeChartData exA, 1 ≤ e.count)
    ∧ (∀ e ∈ paymentChartData exA, 1 ≤ e.count)
    ∧ (∀ e ∈ hourlyChartData exA, 1 ≤ e.orders)
    ∧ (∀ e ∈ customerFrequencyData exA, 1 ≤ e.customers)
    ∧ ((coffeeChartData exA).map (fun e => e.name)).Nodup
    ∧ ((paymentChartData exA).map (fun e => e.method)).Nodup
    ∧ ((hourlyChartData exA).map (fun e => e.hour)).Nodup
    ∧ ((customerFrequencyData exA).map (fun e => e.bucket)).Nodup :=
  group_invariants exA

/-- C6 counterexample: on 16 records split 13/1/1/1 over four payment
methods, the four displayed shares are 81.3, 6.3, 6.3, 6.3, summing to
100.2 — outside the claimed ±0.1 tolerance. -/
theorem percent_closure_fails :
    ¬ |((paymentChartData ex6).map (fun e => e.percentage)).sum - 100| ≤ 1 / 10 := by
  have hstats : paymentStats ex6
      = [("m0", { count := 13, revenue := 13 }),
         ("m1", { count := 1, revenue := 1 }),
         ("m2", { count := 1, revenue := 1 }),
         ("m3", { count := 1, revenue := 1 })] := by
    norm_num [paymentStats, groupFold, ex6, mkRec, upsert, List.replicate]
    decide
  have hlen : ex6.length = 16 := by decide
  have hsum : ((paymentChartData ex6).map (fun e => e.percentage)).sum = 501 / 5 := by
    rw [paymentChartData, hstats, hlen]
    simp only [List.map_cons, List.map_nil, List.sum_cons, List.sum_nil]
    norm_num [toFixed1]
  rw [hsum]
  have habs : |(501 / 5 : ℚ) - 100| = 1 / 5 := by
    rw [show (501 / 5 : ℚ) - 100 = 1 / 5 from by norm_num]
    exact abs_of_pos (by norm_num)
  rw [habs]
  norm_num

/-- C6 (amended): each payments entry's sharePercent equals
`100 * orderCount / totalOrders` formatted to one decimal place, and the sum
of the shares equals 100.0 within ± N/20 (i.e. ±0.05 per payment method),
where N is the number of distinct payment methods; a fixed ±0.1 tolerance
independent of N does not hold. -/
theorem percent_closure_amended (data : List SalesRecord) (hne : data ≠ []) :
    (∀ e ∈ paymentChartData data,
        e.percentage = toFixed1 (100 * (e.count : ℚ) / (totalOrders data : ℚ)))
    ∧ |((paymentChartData data).map (fun e => e.percentage)).sum - 100|
        ≤ ((paymentChartData data).length : ℚ) / 20 := by
  have hT : ((data.length : ℕ) : ℚ) ≠ 0 := by
    rw [Nat.cast_ne_zero]
    cases data with
    | nil => exact absurd rfl hne
    | cons x xs => simp
  constructor
  · intro e he
    rw [paymentChartData] at he
    obtain ⟨p, hp, rfl⟩ := List.mem_map.mp he
    show toFixed1 _ = toFixed1 _
    refine congrArg toFixed1 ?_
    rw [totalOrders]
    ring
  · have hmap : (paymentChartData data).map (fun e => e.percentage)
        = ((paymentStats data).map
            (fun p => (p.2.count : ℚ) / (data.length : ℚ) * 100)).map toFixed1 := by
      rw [paymentChartData, List.map_map, List.map_map]
      rfl
    have hexact : ((paymentStats data).map
        (fun p => (p.2.count : ℚ) / (data.length : ℚ) * 100)).sum = 100 := by
      rw [sum_map_div_mul (fun p => ((p.2.count : ℚ))) ((data.length : ℚ)) 100
        (paymentStats data)]
      have hcast := sum_map_natCast (fun p : String × PayStat => p.2.count)
        (paymentStats data)
      simp only [] at hcast
      rw [hcast, payment_count_sum]
      field_simp
    have hb := abs_sum_toFixed1_sub ((paymentStats data).map
      (fun p => (p.2.count : ℚ) / (data.length : ℚ) * 100))
    rw [hexact, List.length_map] at hb
    have hlen : (paymentChartData data).length = (paymentStats data).length := by
      rw [paymentChartData, List.length_map]
    rw [hmap, hlen]
    exact hb

/-- C6 witness: the amended statement instantiated at the Scenario A input
(two payment methods, shares 66.7 and 33.3). -/
theorem percent_closure_amended_witness :
    exA ≠ []
    ∧ ((∀ e ∈ paymentChartData exA,
          e.percentage = toFixed1 (100 * (e.count : ℚ) / (totalOrders exA : ℚ)))
       ∧ |((paymentChartData exA).map (fun e => e.percentage)).sum - 100|
           ≤ ((paymentChartData exA).length : ℚ) / 20) :=
  ⟨by decide, percent_closure_amended exA (by decide)⟩
